import Mathlib

/-!
Shallow embedding of the BookClub single-page application (src/App.jsx).

Conventions of the embedding:
* JS timestamps (milliseconds since the Unix epoch) are `Int`; the epoch
  sentinel `new Date(0)` is `0`.
* The host's generic date parser (`new Date(string)` followed by the
  `isNaN` check) is an external, locale-dependent facility; it is passed
  in as a parameter `generic : String → Option Int` (`none` models a
  non-finite result).  `new Date(year, month, 1)` is computed concretely
  with proleptic-Gregorian calendar arithmetic (UTC; the host's local
  time-zone offset is abstracted to zero, which affects no ordering or
  sentinel property).
* Nullable JS strings are `Option String`; `window.prompt` results are
  `Option String` (`none` = cancel) and `window.confirm` is `Bool`.
* The Firestore document store, network and rendering are outside the
  model: mutation functions return the document that would be written (or
  a rejection) instead of performing I/O.
* The derived catalog-link URL fields (goodreadsLink / wcclsLink /
  multcolibLink) are presentation-only derived strings and are not
  carried in the record model.
-/

namespace BookClub

/-! ### Character-list utilities (JS string primitives) -/

/-- One separator class of the regex `[\s-]+` used by `parseDate`. -/
def isSepWsHyphen (c : Char) : Bool := c.isWhitespace || c == '-'

/-- JS `String.prototype.split` on a regex `CLASS+`: splits at each maximal
run of separator characters; a leading (resp. trailing) separator run
produces an empty first (resp. last) token; the result is never empty. -/
def splitRuns (p : Char → Bool) : List Char → List (List Char)
  | [] => [[]]
  | c :: cs =>
    let r := splitRuns p cs
    if p c then
      match cs with
      | [] => [] :: r
      | c2 :: _ => if p c2 then r else [] :: r
    else
      (c :: r.headD []) :: r.tail

/-- JS `String.prototype.trim` on a character list. -/
def trimChars (cs : List Char) : List Char :=
  ((cs.dropWhile Char.isWhitespace).reverse.dropWhile Char.isWhitespace).reverse

/-- JS `String.prototype.trim` on a string. -/
def trimStr (s : String) : String := String.mk (trimChars s.toList)

/-- JS `String.prototype.toLowerCase` (character-wise). -/
def toLowerStr (s : String) : String := String.mk (s.toList.map Char.toLower)

/-- JS `String.prototype.split` on a single-character separator string:
split at every occurrence, no run collapsing, never empty. -/
def splitAtChar (sep : Char) : List Char → List (List Char)
  | [] => [[]]
  | c :: cs =>
    let r := splitAtChar sep cs
    if c = sep then [] :: r else (c :: r.headD []) :: r.tail

/-- JS `Array.prototype.join(sep)`. -/
def joinWith (sep : String) : List String → String
  | [] => ""
  | [x] => x
  | x :: y :: xs => x ++ sep ++ joinWith sep (y :: xs)

/-- Is `sub` a leading block of `t`? (helper for substring containment). -/
def startsWithChars : List Char → List Char → Bool
  | [], _ => true
  | _ :: _, [] => false
  | a :: s, b :: t => a == b && startsWithChars s t

/-- JS `String.prototype.includes`: does `sub` occur contiguously in the text? -/
def containsSub (sub : List Char) : List Char → Bool
  | [] => startsWithChars sub []
  | c :: rest => startsWithChars sub (c :: rest) || containsSub sub rest

/-- `s.includes(sub)` on Lean strings. -/
def strIncludes (s sub : String) : Bool := containsSub sub.toList s.toList

/-! ### JS `parseInt` -/

/-- Decimal digit value. -/
def digitVal (c : Char) : Option Nat :=
  if c.isDigit then some (c.toNat - 48) else none

/-- Hexadecimal digit value. -/
def hexVal (c : Char) : Option Nat :=
  if c.isDigit then some (c.toNat - 48)
  else if 'a' ≤ c ∧ c ≤ 'f' then some (c.toNat - 87)
  else if 'A' ≤ c ∧ c ≤ 'F' then some (c.toNat - 55)
  else none

/-- Longest leading run of digits, as digit values. -/
def leadDigits (val : Char → Option Nat) : List Char → List Nat
  | [] => []
  | c :: cs =>
    match val c with
    | some d => d :: leadDigits val cs
    | none => []

/-- Value of a digit string in the given base. -/
def digitsToNat (base : Nat) (ds : List Nat) : Nat :=
  ds.foldl (fun a d => a * base + d) 0

/-- JS `parseInt(str)` with no radix argument: skip leading whitespace,
optional sign, `0x`/`0X` switches to base 16, then the longest leading
digit run; `none` models `NaN`. -/
def parseIntJS (cs0 : List Char) : Option Int :=
  let cs1 := cs0.dropWhile Char.isWhitespace
  let signed : Int × List Char :=
    match cs1 with
    | '-' :: t => (-1, t)
    | '+' :: t => (1, t)
    | t => (1, t)
  let based : Nat × List Char :=
    match signed.2 with
    | '0' :: 'x' :: t => (16, t)
    | '0' :: 'X' :: t => (16, t)
    | t => (10, t)
  let ds := leadDigits (if based.1 = 16 then hexVal else digitVal) based.2
  if ds = [] then none
  else some (signed.1 * (digitsToNat based.1 ds : Int))

/-! ### Calendar arithmetic: `new Date(year, month, 1).getTime()` -/

/-- Days from 1970-01-01 to year `y`, month `m` (1–12), day `d`
(proleptic Gregorian; Howard Hinnant's `days_from_civil`). -/
def daysFromCivil (y m d : Int) : Int :=
  let y2 := y - (if m ≤ 2 then 1 else 0)
  let era := Int.fdiv y2 400
  let yoe := y2 - era * 400
  let mp := (m + 9) % 12
  let doy := Int.fdiv (153 * mp + 2) 5 + d - 1
  let doe := yoe * 365 + Int.fdiv yoe 4 - Int.fdiv yoe 100 + doy
  era * 146097 + doe - 719468

/-- The `Date(year, …)` constructor maps a year from 0 to 99 to 1900+year. -/
def jsYearAdjust (y : Int) : Int := if 0 ≤ y ∧ y ≤ 99 then 1900 + y else y

/-- Timestamp of `new Date(year, monthIdx, 1)` (monthIdx 0-based, as in JS). -/
def dateValue (year monthIdx : Int) : Int :=
  daysFromCivil (jsYearAdjust year) (monthIdx + 1) 1 * 86400000

/-! ### DateNormalizer: `parseDate` (App.jsx lines 14–37) -/

/-- The fixed 12-entry month-abbreviation table of `parseDate`. -/
def monthsTable : List (String × Int) :=
  [("jan", 0), ("feb", 1), ("mar", 2), ("apr", 3), ("may", 4), ("jun", 5),
   ("jul", 6), ("aug", 7), ("sep", 8), ("oct", 9), ("nov", 10), ("dec", 11)]

/-- The manual "Month Year" fallback inside `parseDate`: trim, split on
whitespace/hyphen runs, look the first token's lowercase 3-letter head up
in `monthsTable`, `parseInt` the last token; first-of-month on success,
epoch sentinel otherwise. -/
def fallbackMonthYear (s : String) : Int :=
  let parts := splitRuns isSepWsHyphen (trimChars s.toList)
  if parts.length ≥ 2 then
    let monthName := ((parts.headD []).map Char.toLower).take 3
    match monthsTable.lookup (String.mk monthName), parseIntJS (parts.getLastD []) with
    | some m, some y => dateValue y m
    | some _, none => 0
    | none, _ => 0
  else 0

/-- `parseDate` (App.jsx 14–37).  `generic` stands for the host's
`new Date(string)` parse (`none` = non-finite); `none`/`""` input is the
JS falsy guard `if (!dateStr)`. -/
def parseDate (generic : String → Option Int) (dateStr : Option String) : Int :=
  match dateStr with
  | none => 0
  | some s =>
    if s = "" then 0
    else
      match generic s with
      | some t => t
      | none => fallbackMonthYear s

/-! ### The BookRecord model -/

/-- A persisted book document (fields written by App.jsx; derived catalog
links omitted, see the file header). -/
structure Book where
  title : String
  author_name : List String
  isbn : Option String := none
  coverUrl : Option String := none
  status : String := ""
  sortDate : Int := 0
  displayDate : String := ""
  proposer : String := ""
  comments : String := ""
  attemptedV2 : Bool := false
deriving DecidableEq, Repr, Inhabited

/-! ### SessionGate -/

/-- The fixed admin allow-list (App.jsx line 8). -/
def ADMIN_EMAILS : List String := ["sharon@tutorshiba.com"]

/-- `isAdmin` (App.jsx 56–58) on a signed-in e-mail. -/
def isAdmin (email : String) : Bool :=
  ADMIN_EMAILS.any (fun e => toLowerStr e == toLowerStr email)

/-- `isAdmin(currentUser)` including the null check (`currentUser && …`). -/
def isAdminUser : Option String → Bool
  | none => false
  | some e => isAdmin e

/-- JS truthiness of a nullable string (`null`, `undefined` and `""` are falsy). -/
def truthyStrOpt : Option String → Bool
  | none => false
  | some s => s ≠ ""

/-- `book.coverUrl || null` — an empty string collapses to null. -/
def orNull : Option String → Option String
  | none => none
  | some s => if s = "" then none else some s

/-- `user.email.split('@')[0]`. -/
def emailLocalPart (email : String) : String :=
  String.mk ((splitAtChar '@' email.toList).headD [])

/-! ### CollectionSync: `addBookToFirebase` (App.jsx 219–277) -/

/-- Outcome of an `addBookToFirebase` call: an alert message with no
write, a declined confirmation with no write, or the single document
that is written. -/
inductive AddOutcome where
  | rejected (msg : String)
  | cancelled
  | written (doc : Book)
deriving DecidableEq, Repr

/-- `addBookToFirebase` (App.jsx 219–277).  `todayLocale` is the host's
`new Date().toLocaleDateString()`, `nowTs` the current instant, and the
three `Option String`s the prompt results. -/
def addBookToFirebase (generic : String → Option Int) (todayLocale : String) (nowTs : Int)
    (user : Option String) (book : Book) (status : String)
    (confirmAdd : Bool) (inputDate inputProposer inputComments : Option String) : AddOutcome :=
  match user with
  | none => .rejected "Please log in to add books!"
  | some u =>
    if status ≠ "suggested" ∧ isAdmin u = false then
      .rejected "Only admins can add to the Read or Scheduled lists."
    else if confirmAdd then
      let displayDate0 := if status = "read" then todayLocale else ""
      let displayDate := inputDate.getD displayDate0
      let sortDate :=
        match inputDate with
        | none => nowTs
        | some d =>
          let parsed := parseDate generic (some d)
          if parsed ≠ 0 then parsed else nowTs
      let proposer := (inputProposer.getD (emailLocalPart u))
      let comments := (inputComments.getD "")
      .written { title := book.title, author_name := book.author_name,
                 coverUrl := orNull book.coverUrl, isbn := orNull book.isbn,
                 status := status, sortDate := sortDate, displayDate := displayDate,
                 proposer := proposer, comments := comments,
                 attemptedV2 := truthyStrOpt book.coverUrl }
    else .cancelled

/-! ### CollectionSync: `editBook` (App.jsx 280–312) -/

/-- Exactly the four fields the `updateDoc` call of `editBook` writes. -/
structure EditFields where
  displayDate : String
  proposer : String
  comments : String
  sortDate : Int
deriving DecidableEq, Repr

/-- `editBook` (App.jsx 280–312): admin gate, three prompts (any cancel
aborts), conditional `sortDate` recomputation; returns the update payload,
or `none` when nothing is written. -/
def editBook (generic : String → Option Int) (user : Option String) (book : Book)
    (promptDate promptProposer promptComments : Option String) : Option EditFields :=
  if isAdminUser user = false then none
  else
    match promptDate with
    | none => none
    | some newDisplayDate =>
      match promptProposer with
      | none => none
      | some newProposer =>
        match promptComments with
        | none => none
        | some newComments =>
          let newSortDate :=
            if newDisplayDate ≠ book.displayDate then
              let parsed := parseDate generic (some newDisplayDate)
              if parsed ≠ 0 then parsed else book.sortDate
            else book.sortDate
          some { displayDate := newDisplayDate, proposer := newProposer,
                 comments := newComments, sortDate := newSortDate }

/-- Firestore `updateDoc` semantics: merge the payload fields into the
stored document, leaving every other field unchanged. -/
def applyEdit (b : Book) (e : EditFields) : Book :=
  { b with displayDate := e.displayDate, proposer := e.proposer,
           comments := e.comments, sortDate := e.sortDate }

/-! ### SpreadsheetImportParser: CSV splitting (App.jsx 334, 356) -/

/-- Number of double-quote characters in a list. -/
def countQuotes (cs : List Char) : Nat := cs.countP (fun c => c == '"')

/-- The split regex of the import,
a comma followed by the lookahead for an even number of quotes up to the
end of the line: split exactly at those commas (no run collapsing). -/
def csvSplit : List Char → List (List Char)
  | [] => [[]]
  | c :: cs =>
    let r := csvSplit cs
    if c = ',' ∧ countQuotes cs % 2 = 0 then [] :: r
    else (c :: r.headD []) :: r.tail

/-- `.replace(/^"|"$/g, '')`: drop one leading and one trailing quote. -/
def stripOuterQuotes (cs : List Char) : List Char :=
  let cs1 := match cs with
    | c :: t => if c = '"' then t else c :: t
    | [] => []
  match cs1.getLast? with
  | some c => if c = '"' then cs1.dropLast else cs1
  | none => cs1

/-- Per-field cleanup of the import: strip outer quotes, then trim. -/
def cleanField (cs : List Char) : List Char := trimChars (stripOuterQuotes cs)

/-! ### SpreadsheetImportParser: row loop (App.jsx 323–417) -/

/-- The regex `/(jan|feb|mar|apr|may|jun|jul|aug|sep|oct|nov|dec)/i` of the
import's status classification. -/
def monthTokens : List String :=
  ["jan", "feb", "mar", "apr", "may", "jun", "jul", "aug", "sep", "oct", "nov", "dec"]

/-- Case-insensitive test for a 3-letter month token anywhere in the text. -/
def hasMonthToken (s : String) : Bool :=
  monthTokens.any (fun m => containsSub m.toList (s.toList.map Char.toLower))

/-- The status classification of one import row (App.jsx 376–385):
no month token anywhere in the raw date text → suggested; month token
and parsed instant strictly after now → scheduled; otherwise read.
(`parseDate` is pure, so recomputing it here equals the `dateObj` the
loop computed once.) -/
def importStatus (generic : String → Option Int) (now : Int) (monthYear : String) : String :=
  if ¬hasMonthToken monthYear then "suggested"
  else if parseDate generic (some monthYear) > now then "scheduled"
  else "read"

/-- Resolved column roles of the import (`-1` sentinels become `none`;
`tI`/`aI` already include the fallback to columns 0/1). -/
structure ColConfig where
  tI : Nat
  aI : Nat
  dateIdx : Option Nat
  proposerIdx : Option Nat
  isbnIdx : Option Nat
  commentsIdx : Option Nat
deriving DecidableEq, Repr

/-- The data-row loop of `migrateFromGoogleSheet` (App.jsx 354–407):
`i` is the row index in `allRows` (the first data row has `i = 1`),
`existing` the current dedup set of normalized titles.  Produces the
draft documents that would be written, in row order. -/
def migrateRows (generic : String → Option Int) (now : Int) (cfg : ColConfig) :
    List String → Nat → List String → List Book
  | [], _, _ => []
  | row :: rest, i, existing =>
    let cols := (csvSplit row.toList).map (fun c => String.mk (cleanField c))
    if cols.length ≤ max cfg.tI cfg.aI then
      migrateRows generic now cfg rest (i + 1) existing
    else
      let title := cols.getD cfg.tI ""
      let author := cols.getD cfg.aI ""
      if title = "" then
        migrateRows generic now cfg rest (i + 1) existing
      else
        let normalizedTitle := trimStr (toLowerStr title)
        if normalizedTitle ∈ existing then
          migrateRows generic now cfg rest (i + 1) existing
        else
          let monthYear := match cfg.dateIdx with
            | some d => cols.getD d ""
            | none => ""
          let proposer := match cfg.proposerIdx with
            | some p => cols.getD p ""
            | none => ""
          let isbn := cfg.isbnIdx.bind (fun j => cols.get? j)
          let comments := match cfg.commentsIdx with
            | some c => cols.getD c ""
            | none => ""
          let dateObj := parseDate generic (some monthYear)
          let status := importStatus generic now monthYear
          let sortDate := dateObj + (i : Int) * 1000
          let bk : Book :=
            { title := title, author_name := [author], isbn := isbn, coverUrl := none,
              status := status, sortDate := sortDate, displayDate := monthYear,
              proposer := proposer, comments := comments, attemptedV2 := false }
          bk :: migrateRows generic now cfg rest (i + 1) (normalizedTitle :: existing)

/-- Header analysis of the import (App.jsx 334–346). -/
def resolveColumns (headerRow : String) : ColConfig :=
  let headers := (csvSplit headerRow.toList).map
    (fun h => toLowerStr (String.mk (cleanField h)))
  let titleIdx := headers.findIdx? (fun h => strIncludes h "title" || strIncludes h "book")
  let authorIdx := headers.findIdx? (fun h => strIncludes h "author")
  { tI := titleIdx.getD 0
    aI := authorIdx.getD 1
    dateIdx := headers.findIdx? (fun h =>
      strIncludes h "month" || strIncludes h "read" || strIncludes h "year")
    proposerIdx := headers.findIdx? (fun h =>
      strIncludes h "proposer" || strIncludes h "host")
    isbnIdx := headers.findIdx? (fun h => strIncludes h "isbn")
    commentsIdx := headers.findIdx? (fun h =>
      strIncludes h "comment" || strIncludes h "note") }

/-- `migrateFromGoogleSheet` (App.jsx 323–417), its pure core: from the
fetched CSV text and the live collection snapshot, the drafts that get
persisted; `none` is the thrown "No data found" (fewer than 2 lines). -/
def migrateFromGoogleSheet (generic : String → Option Int) (now : Int)
    (text : String) (myBooks : List Book) : Option (List Book) :=
  let allRows := (splitAtChar '\n' text.toList).map String.mk
  if allRows.length < 2 then none
  else
    let cfg := resolveColumns (allRows.headD "")
    let existingTitles := myBooks.map (fun b => trimStr (toLowerStr b.title))
    some (migrateRows generic now cfg allRows.tail 1 existingTitles)

/-! ### ListView: `getDisplayBooks` (App.jsx 420–445) -/

/-- Ascending comparison on `sortDate` (the `scheduled` tab comparator). -/
def sortAsc (a b : Book) : Prop := a.sortDate ≤ b.sortDate

/-- Descending comparison on `sortDate` (the comparator of the other tabs). -/
def sortDesc (a b : Book) : Prop := b.sortDate ≤ a.sortDate

instance : DecidableRel sortAsc := fun a b =>
  inferInstanceAs (Decidable (a.sortDate ≤ b.sortDate))

instance : DecidableRel sortDesc := fun a b =>
  inferInstanceAs (Decidable (b.sortDate ≤ a.sortDate))

instance : IsTotal Book sortAsc :=
  ⟨fun a b => Int.le_total a.sortDate b.sortDate⟩

instance : IsTrans Book sortAsc :=
  ⟨fun _ _ _ hab hbc => le_trans hab hbc⟩

instance : IsTotal Book sortDesc :=
  ⟨fun a b => (Int.le_total b.sortDate a.sortDate).imp id id⟩

instance : IsTrans Book sortDesc :=
  ⟨fun _ _ _ hab hbc => le_trans hbc hab⟩

/-- The filter predicate of `getDisplayBooks` (App.jsx 426–432). -/
def matchesFilter (activeTab filterQuery : String) (b : Book) : Bool :=
  b.status == activeTab &&
    (strIncludes (toLowerStr b.title) (toLowerStr filterQuery) ||
     strIncludes (toLowerStr (joinWith " " b.author_name)) (toLowerStr filterQuery))

/-- `getDisplayBooks` (App.jsx 420–445).  The JS `Array.prototype.sort`
with a numeric comparator on `sortDate` is a stable sort w.r.t. that
comparator; it is modelled by the (stable) insertion sort. -/
def getDisplayBooks (myBooks searchResults : List Book)
    (activeTab filterQuery : String) : List Book :=
  if activeTab = "search" then searchResults
  else
    let books := myBooks.filter (matchesFilter activeTab filterQuery)
    if activeTab = "scheduled" then List.insertionSort sortAsc books
    else List.insertionSort sortDesc books

/-! ## Helper lemmas -/

theorem containsSub_nil_left (l : List Char) : containsSub [] l = true := by
  cases l <;> rfl

theorem csvSplit_ne_nil (cs : List Char) : csvSplit cs ≠ [] := by
  cases cs with
  | nil => simp [csvSplit]
  | cons c t =>
    simp only [csvSplit]
    split <;> simp

theorem cons_tail_length {α : Type} (l : List α) (x : α) (h : l ≠ []) :
    (x :: l.tail).length = l.length := by
  cases l <;> simp_all

theorem countQuotes_append (a b : List Char) :
    countQuotes (a ++ b) = countQuotes a + countQuotes b := by
  simp [countQuotes, List.countP_append]

theorem countQuotes_comma (post : List Char) :
    countQuotes (',' :: post) = countQuotes post := by
  simp [countQuotes, List.countP_cons]

/-- A comma followed by an odd number of quotes is not a split point: the
field decomposition is the same as if the comma were plain field text. -/
theorem csvSplit_comma_inside (post : List Char) (hpost : countQuotes post % 2 = 1) :
    ∀ pre : List Char,
      (csvSplit (pre ++ ',' :: post)).length = (csvSplit (pre ++ post)).length := by
  intro pre
  induction pre with
  | nil =>
    simp only [List.nil_append, csvSplit]
    rw [if_neg]
    · exact cons_tail_length _ _ (csvSplit_ne_nil post)
    · rintro ⟨-, h2⟩
      omega
  | cons c pre ih =>
    simp only [List.cons_append, csvSplit, List.append_eq]
    have hq : countQuotes (pre ++ ',' :: post) = countQuotes (pre ++ post) := by
      rw [countQuotes_append, countQuotes_append, countQuotes_comma]
    by_cases hsplit : c = ',' ∧ countQuotes (pre ++ post) % 2 = 0
    · rw [if_pos ⟨hsplit.1, by rw [hq]; exact hsplit.2⟩, if_pos hsplit]
      simp [ih]
    · rw [if_neg (fun h => hsplit ⟨h.1, by rw [← hq]; exact h.2⟩), if_neg hsplit]
      rw [cons_tail_length _ _ (csvSplit_ne_nil _), cons_tail_length _ _ (csvSplit_ne_nil _)]
      exact ih

/-! ## C6 — quoted-field-aware splitting of import lines -/

/-- C6: the import's field splitting does not split on a comma inside a
properly paired double-quote region (an odd number of quotes precede it
on a line whose quotes pair up, so the field decomposition is unchanged
when that comma is treated as text); per-field cleanup strips one pair of
enclosing quotes plus the surrounding whitespace; and the line
"Smith, John","Title, With Comma",2020 splits into exactly the 3 fields. -/
theorem csv_quoted_fields :
    (∀ pre post : List Char,
        countQuotes (pre ++ ',' :: post) % 2 = 0 →
        countQuotes pre % 2 = 1 →
        (csvSplit (pre ++ ',' :: post)).length = (csvSplit (pre ++ post)).length) ∧
    (∀ s : List Char, cleanField ('"' :: (s ++ ['"'])) = trimChars s) ∧
    (csvSplit ("\"Smith, John\",\"Title, With Comma\",2020".toList)).map
        (fun c => String.mk (cleanField c)) =
      ["Smith, John", "Title, With Comma", "2020"] := by
  refine ⟨?_, ?_, by decide⟩
  · intro pre post htot hpre
    have hpost : countQuotes post % 2 = 1 := by
      rw [countQuotes_append, countQuotes_comma] at htot
      omega
    exact csvSplit_comma_inside post hpost pre
  · intro s
    show trimChars (stripOuterQuotes ('"' :: (s ++ ['"']))) = trimChars s
    congr 1
    simp [stripOuterQuotes, List.getLast?_concat, List.dropLast_concat]

/-- Witness for C6 at a concrete quoted line: the comma of
`"Smith, John"` (1 quote before it, 4 quotes on the line) is not a split
point. -/
theorem csv_quoted_fields_witness :
    (csvSplit ("\"Smith".toList ++ ',' :: " John\",x".toList)).length =
      (csvSplit ("\"Smith".toList ++ " John\",x".toList)).length ∧
    cleanField ('"' :: (" a,b ".toList ++ ['"'])) = "a,b".toList := by
  constructor
  · exact csv_quoted_fields.1 ("\"Smith".toList) (" John\",x".toList) (by decide) (by decide)
  · rw [csv_quoted_fields.2.1 (" a,b ".toList)]
    decide

/-! ## C3 — the DateNormalizer `parseDate` -/

/-- C3: `parseDate` is total by construction (a Lean function; no
exception can escape), returns the epoch sentinel `0` on missing/empty
input, returns the generic parse when it is finite, and otherwise falls
back to the "Month Year" pattern: split on whitespace/hyphen runs, look
up the first token's lowercase 3-letter head in the 12-entry month table,
`parseInt` the last token; the first-of-month instant when both resolve,
the epoch sentinel otherwise. -/
theorem parseDate_spec (generic : String → Option Int) :
    parseDate generic none = 0 ∧
    parseDate generic (some "") = 0 ∧
    (∀ s t, s ≠ "" → generic s = some t → parseDate generic (some s) = t) ∧
    (∀ s, s ≠ "" → generic s = none →
        parseDate generic (some s) = fallbackMonthYear s) ∧
    (∀ s m y,
        (splitRuns isSepWsHyphen (trimChars s.toList)).length ≥ 2 →
        monthsTable.lookup (String.mk
          ((((splitRuns isSepWsHyphen (trimChars s.toList)).headD []).map Char.toLower).take 3)) =
            some m →
        parseIntJS ((splitRuns isSepWsHyphen (trimChars s.toList)).getLastD []) = some y →
        fallbackMonthYear s = dateValue y m) ∧
    (∀ s,
        ¬((splitRuns isSepWsHyphen (trimChars s.toList)).length ≥ 2 ∧
          (∃ m, monthsTable.lookup (String.mk
            ((((splitRuns isSepWsHyphen (trimChars s.toList)).headD []).map Char.toLower).take 3)) =
              some m) ∧
          (∃ y, parseIntJS ((splitRuns isSepWsHyphen (trimChars s.toList)).getLastD []) = some y)) →
        fallbackMonthYear s = 0) := by
  refine ⟨rfl, by simp [parseDate], ?_, ?_, ?_, ?_⟩
  · intro s t hs hg
    simp only [parseDate]
    rw [if_neg hs, hg]
  · intro s hs hg
    simp only [parseDate]
    rw [if_neg hs, hg]
  · intro s m y hlen hm hy
    simp only [fallbackMonthYear]
    rw [if_pos hlen, hm, hy]
  · intro s hno
    simp only [fallbackMonthYear]
    by_cases hlen : (splitRuns isSepWsHyphen (trimChars s.toList)).length ≥ 2
    · rw [if_pos hlen]
      cases hm : monthsTable.lookup (String.mk
          ((((splitRuns isSepWsHyphen (trimChars s.toList)).headD []).map Char.toLower).take 3)) with
      | none =>
        cases hy2 : parseIntJS ((splitRuns isSepWsHyphen (trimChars s.toList)).getLastD []) with
        | none => rfl
        | some y => rfl
      | some m =>
        cases hy2 : parseIntJS ((splitRuns isSepWsHyphen (trimChars s.toList)).getLastD []) with
        | none => rfl
        | some y => exact absurd ⟨hlen, ⟨m, hm⟩, ⟨y, hy2⟩⟩ hno
    · rw [if_neg hlen]

/-- Witness for C3: "September 2025" resolves through the fallback to the
first-of-month instant; "garbage" degrades to the sentinel; missing and
empty input give the sentinel. -/
theorem parseDate_spec_witness :
    parseDate (fun _ => none) (some "September 2025") = dateValue 2025 8 ∧
    dateValue 2025 8 = 1756684800000 ∧
    parseDate (fun _ => none) (some "garbage") = 0 ∧
    parseDate (fun _ => none) none = 0 ∧
    parseDate (fun _ => none) (some "") = 0 := by
  obtain ⟨h1, h2, _, h4, h5, h6⟩ := parseDate_spec (fun _ => none)
  refine ⟨?_, by decide, ?_, h1, h2⟩
  · rw [h4 "September 2025" (by decide) rfl]
    exact h5 "September 2025" 8 2025 (by decide) (by decide) (by decide)
  · rw [h4 "garbage" (by decide) rfl]
    exact h6 "garbage" (fun h => absurd h.1 (by decide))

/-! ## C4 — tab ordering of `getDisplayBooks` -/

/-- C4: the search tab returns the search results as-is (API order, no
filtering); the scheduled tab is non-decreasing in `sortDate`; the read
and suggested tabs are non-increasing in `sortDate`. -/
theorem display_sorted (myBooks searchResults : List Book) (activeTab filterQuery : String) :
    getDisplayBooks myBooks searchResults "search" filterQuery = searchResults ∧
    (activeTab = "scheduled" →
      List.Pairwise (fun a b : Book => a.sortDate ≤ b.sortDate)
        (getDisplayBooks myBooks searchResults activeTab filterQuery)) ∧
    (activeTab = "read" ∨ activeTab = "suggested" →
      List.Pairwise (fun a b : Book => b.sortDate ≤ a.sortDate)
        (getDisplayBooks myBooks searchResults activeTab filterQuery)) := by
  refine ⟨by simp [getDisplayBooks], ?_, ?_⟩
  · intro h
    subst h
    have heq : getDisplayBooks myBooks searchResults "scheduled" filterQuery =
        List.insertionSort sortAsc (List.filter (matchesFilter "scheduled" filterQuery) myBooks) := by
      simp [getDisplayBooks]
    rw [heq]
    exact List.sorted_insertionSort sortAsc _
  · intro h
    have hs : activeTab ≠ "search" ∧ activeTab ≠ "scheduled" := by
      rcases h with h | h <;> subst h <;> exact ⟨by decide, by decide⟩
    simp only [getDisplayBooks]
    rw [if_neg hs.1, if_neg hs.2]
    exact List.sorted_insertionSort sortDesc _

/-- Witness for C4 on concrete two-element snapshots (initially out of
order for the respective tab). -/
theorem display_sorted_witness :
    List.Pairwise (fun a b : Book => a.sortDate ≤ b.sortDate)
      (getDisplayBooks
        [{ title := "A", author_name := [], status := "scheduled", sortDate := 9 },
         { title := "B", author_name := [], status := "scheduled", sortDate := 3 }]
        [] "scheduled" "") ∧
    List.Pairwise (fun a b : Book => b.sortDate ≤ a.sortDate)
      (getDisplayBooks
        [{ title := "A", author_name := [], status := "read", sortDate := 3 },
         { title := "B", author_name := [], status := "read", sortDate := 9 }]
        [] "read" "") :=
  ⟨(display_sorted _ [] "scheduled" "").2.1 rfl,
   (display_sorted _ [] "read" "").2.2 (Or.inl rfl)⟩

/-! ## C8 — tab/filter selection of `getDisplayBooks` -/

theorem strIncludes_empty (s : String) : strIncludes s "" = true :=
  containsSub_nil_left s.toList

theorem toLowerStr_empty : toLowerStr "" = "" := rfl

/-- C8: on a non-search tab the display is exactly the records whose
status equals the tab and whose title or joined-author text contains the
filter text case-insensitively; the empty filter matches everything; a
filter text contained in no title or author text yields the empty list. -/
theorem display_filter (myBooks searchResults : List Book) (activeTab filterQuery : String)
    (htab : activeTab ≠ "search") :
    (∀ b : Book,
        b ∈ getDisplayBooks myBooks searchResults activeTab filterQuery ↔
          b ∈ myBooks ∧ b.status = activeTab ∧
            (strIncludes (toLowerStr b.title) (toLowerStr filterQuery) = true ∨
             strIncludes (toLowerStr (joinWith " " b.author_name))
               (toLowerStr filterQuery) = true)) ∧
    (filterQuery = "" →
      ∀ b : Book,
        b ∈ getDisplayBooks myBooks searchResults activeTab filterQuery ↔
          b ∈ myBooks ∧ b.status = activeTab) ∧
    ((∀ b ∈ myBooks,
        strIncludes (toLowerStr b.title) (toLowerStr filterQuery) = false ∧
        strIncludes (toLowerStr (joinWith " " b.author_name))
          (toLowerStr filterQuery) = false) →
      getDisplayBooks myBooks searchResults activeTab filterQuery = []) := by
  have hmem : ∀ b : Book,
      b ∈ getDisplayBooks myBooks searchResults activeTab filterQuery ↔
        b ∈ myBooks ∧ matchesFilter activeTab filterQuery b = true := by
    intro b
    by_cases hsched : activeTab = "scheduled" <;>
      simp [getDisplayBooks, htab, hsched, List.mem_filter]
  refine ⟨?_, ?_, ?_⟩
  · intro b
    rw [hmem b]
    unfold matchesFilter
    simp [Bool.and_eq_true, Bool.or_eq_true, beq_iff_eq]
  · intro hq b
    subst hq
    rw [hmem b]
    unfold matchesFilter
    simp [Bool.and_eq_true, beq_iff_eq, toLowerStr_empty, strIncludes_empty]
  · intro hall
    rw [List.eq_nil_iff_forall_not_mem]
    intro b hb
    rw [hmem b] at hb
    obtain ⟨hmemB, hmatch⟩ := hb
    obtain ⟨h1, h2⟩ := hall b hmemB
    unfold matchesFilter at hmatch
    simp [h1, h2] at hmatch

/-- Witness for C8: a case-insensitive author match is displayed; a
filter matching nothing produces the empty display. -/
theorem display_filter_witness :
    ({ title := "The Goldfinch", author_name := ["Donna Tartt"], status := "read",
       sortDate := 5 } : Book) ∈
      getDisplayBooks
        [{ title := "The Goldfinch", author_name := ["Donna Tartt"], status := "read",
           sortDate := 5 }] [] "read" "tartt" ∧
    getDisplayBooks
        [{ title := "The Goldfinch", author_name := ["Donna Tartt"], status := "read",
           sortDate := 5 }] [] "read" "zzz" = [] := by
  constructor
  · exact ((display_filter _ [] "read" "tartt" (by decide)).1 _).2
      ⟨List.mem_singleton_self _, rfl, Or.inr (by decide)⟩
  · exact (display_filter _ [] "read" "zzz" (by decide)).2.2
      (by
        intro b hb
        rw [List.mem_singleton] at hb
        subst hb
        exact ⟨by decide, by decide⟩)

/-! ## C5 — authorization gate of `addBookToFirebase` -/

/-- C5: `add` requires a signed-in identity for every status (the
unauthenticated call is rejected with a message and no write), and a
non-suggested status additionally requires admin privilege (otherwise an
authorization message and no write).  Both rejection outcomes are
`AddOutcome.rejected …`, disjoint from the `written` constructor. -/
theorem addBook_requires_auth (generic : String → Option Int) (todayLocale : String)
    (nowTs : Int) (user : Option String) (book : Book) (status : String)
    (confirmAdd : Bool) (inputDate inputProposer inputComments : Option String) :
    (user = none →
      addBookToFirebase generic todayLocale nowTs user book status confirmAdd
          inputDate inputProposer inputComments =
        AddOutcome.rejected "Please log in to add books!") ∧
    (∀ u, user = some u → status ≠ "suggested" → isAdmin u = false →
      addBookToFirebase generic todayLocale nowTs user book status confirmAdd
          inputDate inputProposer inputComments =
        AddOutcome.rejected "Only admins can add to the Read or Scheduled lists.") := by
  constructor
  · intro h
    subst h
    rfl
  · intro u hu hstat hadm
    subst hu
    simp only [addBookToFirebase]
    rw [if_pos ⟨hstat, hadm⟩]

/-- Witness for C5: no identity, and a non-admin identity adding to the
read list, are both rejected. -/
theorem addBook_requires_auth_witness :
    addBookToFirebase (fun _ => none) "" 0 none { title := "T", author_name := [] }
        "read" true none none none =
      AddOutcome.rejected "Please log in to add books!" ∧
    addBookToFirebase (fun _ => none) "" 0 (some "bob@example.com")
        { title := "T", author_name := [] } "read" true none none none =
      AddOutcome.rejected "Only admins can add to the Read or Scheduled lists." :=
  ⟨(addBook_requires_auth (fun _ => none) "" 0 none { title := "T", author_name := [] }
      "read" true none none none).1 rfl,
   (addBook_requires_auth (fun _ => none) "" 0 (some "bob@example.com")
      { title := "T", author_name := [] } "read" true none none none).2
      "bob@example.com" rfl (by decide) (by decide)⟩

/-! ## C7 — frame of `editBook` -/

/-- C7: `editBook` writes only {displayDate, proposer, comments,
sortDate} (the `EditFields` payload is exactly these four fields and
merging it leaves title, authors, isbn and status of the stored document
unchanged), requires admin privilege (no-op otherwise), and aborts
writing nothing if any of the three prompts is cancelled. -/
theorem editBook_frame (generic : String → Option Int) (user : Option String) (book : Book)
    (p1 p2 p3 : Option String) :
    (isAdminUser user = false → editBook generic user book p1 p2 p3 = none) ∧
    (p1 = none → editBook generic user book p1 p2 p3 = none) ∧
    (p2 = none → editBook generic user book p1 p2 p3 = none) ∧
    (p3 = none → editBook generic user book p1 p2 p3 = none) ∧
    (∀ e, editBook generic user book p1 p2 p3 = some e →
      (applyEdit book e).title = book.title ∧
      (applyEdit book e).author_name = book.author_name ∧
      (applyEdit book e).isbn = book.isbn ∧
      (applyEdit book e).status = book.status) := by
  refine ⟨?_, ?_, ?_, ?_, ?_⟩
  · intro h
    simp [editBook, h]
  · intro h
    subst h
    by_cases ha : isAdminUser user = false <;> simp [editBook, ha]
  · intro h
    subst h
    by_cases ha : isAdminUser user = false <;> cases p1 <;> simp [editBook, ha]
  · intro h
    subst h
    by_cases ha : isAdminUser user = false <;> cases p1 <;> cases p2 <;> simp [editBook, ha]
  · intro e _
    exact ⟨rfl, rfl, rfl, rfl⟩

/-- Witness for C7: a non-admin edit is a no-op; a cancelled prompt
aborts; a completed admin edit leaves the four immutable fields of the
stored document unchanged. -/
theorem editBook_frame_witness :
    editBook (fun _ => none) (some "bob@example.com")
        { title := "T", author_name := ["A"], status := "read", sortDate := 7 }
        (some "x") (some "y") (some "z") = none ∧
    editBook (fun _ => none) (some "sharon@tutorshiba.com")
        { title := "T", author_name := ["A"], status := "read", sortDate := 7 }
        (some "x") none (some "z") = none ∧
    ((applyEdit { title := "T", author_name := ["A"], status := "read", sortDate := 7 }
        { displayDate := "February 2021", proposer := "p", comments := "c",
          sortDate := 1612137600000 }).title = "T" ∧
     (applyEdit { title := "T", author_name := ["A"], status := "read", sortDate := 7 }
        { displayDate := "February 2021", proposer := "p", comments := "c",
          sortDate := 1612137600000 }).status = "read") := by
  refine ⟨?_, ?_, ?_⟩
  · exact (editBook_frame (fun _ => none) (some "bob@example.com")
      { title := "T", author_name := ["A"], status := "read", sortDate := 7 }
      (some "x") (some "y") (some "z")).1 (by decide)
  · exact (editBook_frame (fun _ => none) (some "sharon@tutorshiba.com")
      { title := "T", author_name := ["A"], status := "read", sortDate := 7 }
      (some "x") none (some "z")).2.2.1 rfl
  · have h := (editBook_frame (fun _ => none) (some "sharon@tutorshiba.com")
      { title := "T", author_name := ["A"], status := "read", sortDate := 7, displayDate := "x" }
      (some "February 2021") (some "p") (some "c")).2.2.2.2
      { displayDate := "February 2021", proposer := "p", comments := "c",
        sortDate := 1612137600000 } (by decide)
    exact ⟨h.1, h.2.2.2⟩

/-! ## C10 — `sortDate` recomputation inside `editBook` -/

/-- C10: a completed edit recomputes `sortDate` from the new date label
only when the label changed and parses to a non-sentinel instant; an
unchanged label or a sentinel parse writes the stored `sortDate` back
unchanged. -/
theorem editBook_sortDate (generic : String → Option Int) (user : Option String) (book : Book)
    (nd np nc : String) (e : EditFields)
    (h : editBook generic user book (some nd) (some np) (some nc) = some e) :
    (nd = book.displayDate ∨ parseDate generic (some nd) = 0 →
      e.sortDate = book.sortDate) ∧
    (nd ≠ book.displayDate → parseDate generic (some nd) ≠ 0 →
      e.sortDate = parseDate generic (some nd)) := by
  by_cases ha : isAdminUser user = false
  · simp [editBook, ha] at h
  · simp only [editBook, if_neg ha] at h
    have hinj := Option.some.inj h
    subst hinj
    constructor
    · rintro (hd | hp)
      · simp [hd]
      · by_cases hd : nd = book.displayDate <;> simp [hd, hp]
    · intro hd hp
      simp [hd, hp]

/-- Witness for C10: an unparsable changed label keeps the stored
`sortDate`; a parsable changed label moves it to the parsed instant. -/
theorem editBook_sortDate_witness :
    ({ displayDate := "garbage", proposer := "p", comments := "c",
       sortDate := 7 } : EditFields).sortDate =
      ({ title := "T", author_name := ["A"], status := "read", sortDate := 7,
         displayDate := "x" } : Book).sortDate ∧
    ({ displayDate := "February 2021", proposer := "p", comments := "c",
       sortDate := 1612137600000 } : EditFields).sortDate =
      parseDate (fun _ => none) (some "February 2021") := by
  constructor
  · exact (editBook_sortDate (fun _ => none) (some "sharon@tutorshiba.com")
      { title := "T", author_name := ["A"], status := "read", sortDate := 7, displayDate := "x" }
      "garbage" "p" "c"
      { displayDate := "garbage", proposer := "p", comments := "c", sortDate := 7 }
      (by decide)).1 (Or.inr (by decide))
  · exact (editBook_sortDate (fun _ => none) (some "sharon@tutorshiba.com")
      { title := "T", author_name := ["A"], status := "read", sortDate := 7, displayDate := "x" }
      "February 2021" "p" "c"
      { displayDate := "February 2021", proposer := "p", comments := "c",
        sortDate := 1612137600000 }
      (by decide)).2 (by decide) (by decide)

/-! ## Invariants of the import row loop -/

/-- Every draft the row loop produces has a normalized title outside the
dedup set it started from, and the drafts' normalized titles are pairwise
distinct (the set is extended as soon as a draft is emitted). -/
theorem migrateRows_dedup (generic : String → Option Int) (now : Int) (cfg : ColConfig) :
    ∀ (rows : List String) (i : Nat) (existing : List String),
      (∀ d ∈ migrateRows generic now cfg rows i existing,
        trimStr (toLowerStr d.title) ∉ existing) ∧
      List.Pairwise (fun a b : Book =>
          trimStr (toLowerStr a.title) ≠ trimStr (toLowerStr b.title))
        (migrateRows generic now cfg rows i existing) := by
  intro rows
  induction rows with
  | nil =>
    intro i existing
    simp [migrateRows]
  | cons row rest ih =>
    intro i existing
    simp only [migrateRows]
    split_ifs with h1 h2 h3
    · exact ih (i + 1) existing
    · exact ih (i + 1) existing
    · exact ih (i + 1) existing
    · refine ⟨fun d hd => ?_, List.Pairwise.cons (fun d hd => ?_) (ih (i + 1) _).2⟩
      · rcases List.mem_cons.mp hd with rfl | hd2
        · exact h3
        · exact fun hc => (ih (i + 1) _).1 d hd2 (List.mem_cons_of_mem _ hc)
      · intro heq
        refine (ih (i + 1) _).1 d hd ?_
        rw [← heq]
        exact List.mem_cons_self _ _

/-- Every draft the row loop produces carries the status computed by
`importStatus` from its own stored raw date text. -/
theorem migrateRows_status (generic : String → Option Int) (now : Int) (cfg : ColConfig) :
    ∀ (rows : List String) (i : Nat) (existing : List String),
      ∀ d ∈ migrateRows generic now cfg rows i existing,
        d.status = importStatus generic now d.displayDate := by
  intro rows
  induction rows with
  | nil =>
    intro i existing
    simp [migrateRows]
  | cons row rest ih =>
    intro i existing
    simp only [migrateRows]
    split_ifs with h1 h2 h3
    · exact ih (i + 1) existing
    · exact ih (i + 1) existing
    · exact ih (i + 1) existing
    · intro d hd
      rcases List.mem_cons.mp hd with rfl | hd2
      · rfl
      · exact ih (i + 1) _ d hd2

theorem add_offset_lt (p : Int) (a b : Nat) (h : a < b) :
    p + (a : Int) * 1000 < p + (b : Int) * 1000 := by
  have hab : (a : Int) < (b : Int) := by exact_mod_cast h
  omega

/-- Every draft's `sortDate` is its parsed instant plus (row index × 1000)
with row indices at least the loop counter; consequently drafts whose
stored date texts parse to the same instant have strictly increasing
`sortDate` in batch order. -/
theorem migrateRows_offset (generic : String → Option Int) (now : Int) (cfg : ColConfig) :
    ∀ (rows : List String) (i : Nat) (existing : List String),
      (∀ d ∈ migrateRows generic now cfg rows i existing,
        ∃ j : Nat, i ≤ j ∧
          d.sortDate = parseDate generic (some d.displayDate) + (j : Int) * 1000) ∧
      List.Pairwise (fun a b : Book =>
          parseDate generic (some a.displayDate) = parseDate generic (some b.displayDate) →
          a.sortDate < b.sortDate)
        (migrateRows generic now cfg rows i existing) := by
  intro rows
  induction rows with
  | nil =>
    intro i existing
    simp [migrateRows]
  | cons row rest ih =>
    intro i existing
    simp only [migrateRows]
    split_ifs with h1 h2 h3
    · refine ⟨fun d hd => ?_, (ih (i + 1) existing).2⟩
      obtain ⟨j, hij, hds⟩ := (ih (i + 1) existing).1 d hd
      exact ⟨j, by omega, hds⟩
    · refine ⟨fun d hd => ?_, (ih (i + 1) existing).2⟩
      obtain ⟨j, hij, hds⟩ := (ih (i + 1) existing).1 d hd
      exact ⟨j, by omega, hds⟩
    · refine ⟨fun d hd => ?_, (ih (i + 1) existing).2⟩
      obtain ⟨j, hij, hds⟩ := (ih (i + 1) existing).1 d hd
      exact ⟨j, by omega, hds⟩
    · refine ⟨fun d hd => ?_, List.Pairwise.cons (fun d hd => ?_) (ih (i + 1) _).2⟩
      · rcases List.mem_cons.mp hd with rfl | hd2
        · exact ⟨i, le_refl i, rfl⟩
        · obtain ⟨j, hij, hds⟩ := (ih (i + 1) _).1 d hd2
          exact ⟨j, by omega, hds⟩
      · intro heq
        obtain ⟨j, hij, hds⟩ := (ih (i + 1) _).1 d hd
        rw [hds, ← heq]
        exact add_offset_lt _ i j (by omega)

/-- Destructuring a successful import run into the row loop. -/
theorem migrate_eq_some (generic : String → Option Int) (now : Int) (text : String)
    (myBooks drafts : List Book)
    (h : migrateFromGoogleSheet generic now text myBooks = some drafts) :
    drafts = migrateRows generic now
      (resolveColumns (((splitAtChar '\n' text.toList).map String.mk).headD ""))
      ((splitAtChar '\n' text.toList).map String.mk).tail 1
      (myBooks.map (fun b => trimStr (toLowerStr b.title))) := by
  simp only [migrateFromGoogleSheet] at h
  by_cases hlen : ((splitAtChar '\n' text.toList).map String.mk).length < 2
  · rw [if_pos hlen] at h
    exact absurd h (by simp)
  · rw [if_neg hlen] at h
    exact (Option.some.inj h).symm

/-! ## C1 — duplicate suppression of the spreadsheet import -/

/-- C1: a successful import batch contains no two drafts with the same
normalized (lowercased, trimmed) title, and no draft whose normalized
title equals the normalized title of a record of the snapshot the dedup
set was seeded from. -/
theorem import_dedup (generic : String → Option Int) (now : Int) (text : String)
    (myBooks drafts : List Book)
    (h : migrateFromGoogleSheet generic now text myBooks = some drafts) :
    List.Pairwise (fun a b : Book =>
        trimStr (toLowerStr a.title) ≠ trimStr (toLowerStr b.title)) drafts ∧
    ∀ d ∈ drafts, ∀ b ∈ myBooks,
      trimStr (toLowerStr d.title) ≠ trimStr (toLowerStr b.title) := by
  obtain rfl := migrate_eq_some generic now text myBooks drafts h
  refine ⟨(migrateRows_dedup generic now _ _ 1 _).2, fun d hd b hb heq => ?_⟩
  exact (migrateRows_dedup generic now _ _ 1 _).1 d hd
    (by rw [heq]; exact List.mem_map_of_mem _ hb)

/-- Witness for C1: a batch with an in-batch duplicate (ALPHA vs Alpha)
and a duplicate of the live snapshot (Delta vs " delta "); the first
surviving draft's normalized title differs from the snapshot title. -/
theorem import_dedup_witness :
    List.Pairwise (fun a b : Book =>
        trimStr (toLowerStr a.title) ≠ trimStr (toLowerStr b.title))
      ((migrateFromGoogleSheet (fun _ => none) 0
        "Title,Author,Month\nAlpha,X,\nALPHA,Y,\nDelta,Z,\nGamma,W,"
        [{ title := " delta ", author_name := [] }]).getD []) ∧
    trimStr (toLowerStr ((((migrateFromGoogleSheet (fun _ => none) 0
        "Title,Author,Month\nAlpha,X,\nALPHA,Y,\nDelta,Z,\nGamma,W,"
        [{ title := " delta ", author_name := [] }]).getD []).getD 0 default).title)) ≠
      trimStr (toLowerStr ({ title := " delta ", author_name := [] } : Book).title) := by
  have h := import_dedup (fun _ => none) 0
    "Title,Author,Month\nAlpha,X,\nALPHA,Y,\nDelta,Z,\nGamma,W,"
    [{ title := " delta ", author_name := [] }] _ rfl
  exact ⟨h.1, h.2 _ (by decide) _ (by decide)⟩

/-! ## C2 — status classification of import rows -/

/-- C2: for every draft of a successful import batch, a date text without
a month token gives status suggested; with a month token, a parsed
instant strictly after now gives scheduled, otherwise read. -/
theorem import_status_classification (generic : String → Option Int) (now : Int)
    (text : String) (myBooks drafts : List Book)
    (h : migrateFromGoogleSheet generic now text myBooks = some drafts) :
    ∀ d ∈ drafts,
      (hasMonthToken d.displayDate = false → d.status = "suggested") ∧
      (hasMonthToken d.displayDate = true →
        parseDate generic (some d.displayDate) > now → d.status = "scheduled") ∧
      (hasMonthToken d.displayDate = true →
        ¬parseDate generic (some d.displayDate) > now → d.status = "read") := by
  obtain rfl := migrate_eq_some generic now text myBooks drafts h
  intro d hd
  have hst := migrateRows_status generic now _ _ 1 _ d hd
  rw [hst]
  unfold importStatus
  refine ⟨fun hm => ?_, fun hm hgt => ?_, fun hm hngt => ?_⟩
  · simp [hm]
  · simp [hm, hgt]
  · simp [hm, hngt]

/-- Witness for C2 on a three-row sheet: past month → read, future
month → scheduled, no month token → suggested (now = 2025-10-01 UTC). -/
theorem import_status_classification_witness :
    ((((migrateFromGoogleSheet (fun _ => none) 1759276800000
        "Title,Author,Month\nA,X,March 2020\nB,Y,December 2099\nC,Z,TBD"
        []).getD []).getD 0 default).status = "read") ∧
    ((((migrateFromGoogleSheet (fun _ => none) 1759276800000
        "Title,Author,Month\nA,X,March 2020\nB,Y,December 2099\nC,Z,TBD"
        []).getD []).getD 1 default).status = "scheduled") ∧
    ((((migrateFromGoogleSheet (fun _ => none) 1759276800000
        "Title,Author,Month\nA,X,March 2020\nB,Y,December 2099\nC,Z,TBD"
        []).getD []).getD 2 default).status = "suggested") := by
  have h := import_status_classification (fun _ => none) 1759276800000
    "Title,Author,Month\nA,X,March 2020\nB,Y,December 2099\nC,Z,TBD" [] _ rfl
  refine ⟨?_, ?_, ?_⟩
  · exact (h _ (by decide)).2.2 (by decide) (by decide)
  · exact (h _ (by decide)).2.1 (by decide) (by decide)
  · exact (h _ (by decide)).1 (by decide)

/-! ## C9 — the per-row sortDate offset versus display order -/

/-- C9 as stated is false: the offset (row index × 1000 ms) makes the
sortDate of a later row strictly larger, so under the descending sort of
the read/suggested tabs two surviving rows with identical parsed
instants appear in REVERSED spreadsheet order.  Concretely: rows Alpha
(row 1) then Beta (row 2), both "March 2020", both status read; the
batch lists Alpha before Beta but the read tab displays Beta before
Alpha. -/
theorem import_offset_counterexample :
    ((migrateFromGoogleSheet (fun _ => none) 1760000000000
        "Title,Author,Month\nAlpha,X,March 2020\nBeta,Y,March 2020" []).map
      (fun l => l.map (fun b => b.title))) = some ["Alpha", "Beta"] ∧
    (((migrateFromGoogleSheet (fun _ => none) 1760000000000
        "Title,Author,Month\nAlpha,X,March 2020\nBeta,Y,March 2020" []).getD []).map
      (fun b => parseDate (fun _ => none) (some b.displayDate))) =
      [1583020800000, 1583020800000] ∧
    (((migrateFromGoogleSheet (fun _ => none) 1760000000000
        "Title,Author,Month\nAlpha,X,March 2020\nBeta,Y,March 2020" []).getD []).map
      (fun b => b.status)) = ["read", "read"] ∧
    ((getDisplayBooks
        ((migrateFromGoogleSheet (fun _ => none) 1760000000000
          "Title,Author,Month\nAlpha,X,March 2020\nBeta,Y,March 2020" []).getD [])
        [] "read" "").map (fun b => b.title)) = ["Beta", "Alpha"] := by
  refine ⟨by decide, by decide, by decide, by decide⟩

/-- C9 amended: the import applies the deterministic per-row offset
(row index × 1000 ms), so drafts whose date texts parse to an identical
instant get strictly increasing `sortDate` in spreadsheet order; hence
their relative order is retained under the scheduled tab's ascending
sort and reversed under the descending sort of the read/suggested tabs. -/
theorem import_offset_order (generic : String → Option Int) (now : Int) (text : String)
    (myBooks drafts : List Book)
    (h : migrateFromGoogleSheet generic now text myBooks = some drafts) :
    List.Pairwise (fun a b : Book =>
      parseDate generic (some a.displayDate) = parseDate generic (some b.displayDate) →
      a.sortDate < b.sortDate) drafts := by
  obtain rfl := migrate_eq_some generic now text myBooks drafts h
  exact (migrateRows_offset generic now _ _ 1 _).2

/-- Witness for the amended C9 at the counterexample's sheet. -/
theorem import_offset_order_witness :
    List.Pairwise (fun a b : Book =>
      parseDate (fun _ => none) (some a.displayDate) =
        parseDate (fun _ => none) (some b.displayDate) →
      a.sortDate < b.sortDate)
      ((migrateFromGoogleSheet (fun _ => none) 1760000000000
        "Title,Author,Month\nAlpha,X,March 2020\nBeta,Y,March 2020" []).getD []) :=
  import_offset_order (fun _ => none) 1760000000000
    "Title,Author,Month\nAlpha,X,March 2020\nBeta,Y,March 2020" [] _ rfl

end BookClub
